import Mathlib

/-!
Verification of the modified-chunk store of vmnetfs (`vmnetfs/ll-modified.c`).

The development is a shallow embedding of the C source.  The on-disk state
(chunk files keyed by chunk index, each with its byte contents and its
persisted uploaded tag stored in the sticky permission bit), the two
in-memory bitmaps and the two statistics counters are collected in a state
record, and each C function becomes a Lean function on that record.

Modelling conventions, applied uniformly:
* I/O primitives (`mkdir`, `open`, `pread`/`pwrite`, `ftruncate`, `remove`)
  are assumed to succeed; a `g_assert` failure aborts the process and is
  modelled as `none` / no resulting state.
* Modelled from the spec: the bit-array primitive (`_vmnetfs_bit_new`,
  `_vmnetfs_bit_test`, `_vmnetfs_bit_set`, `_vmnetfs_bit_notify_plus_minus`)
  and the u64 statistics counters (`_vmnetfs_u64_stat_increment` /
  `_vmnetfs_u64_stat_decrement`) are repository code not present under
  `src/`.  Following spec section 6, a bitmap is a `Nat → Bool` map created
  all-clear, `notify_plus_minus m c d` sets bit `c` to the delta value
  (`1` sets, `0` clears) with an observer notification, and the counters
  are integer counters with plain increment/decrement.
* `stat` on a file that does not exist fails and leaves the stat buffer
  unchanged; the sticky-bit test on a missing file is modelled as `false`.
* `g_file_set_contents` rewrites a file through a temporary file and
  rename, so the rewritten file carries fresh default permissions: the
  sticky-bit uploaded tag is cleared (spec sections 4.2 and 9 describe
  exactly this side channel).
-/

/-- Pointwise update of a map at one key. -/
def upd {α : Type} (f : Nat → α) (k : Nat) (v : α) : Nat → α :=
  fun c => if c = k then v else f c

@[simp] theorem upd_self {α : Type} (f : Nat → α) (k : Nat) (v : α) :
    upd f k v k = v := by
  simp [upd]

@[simp] theorem upd_ne {α : Type} (f : Nat → α) (k : Nat) (v : α) {c : Nat}
    (h : c ≠ k) : upd f k v c = f c := by
  simp [upd, h]

/-- A chunk file on disk: its byte contents (the list length is the file
size) and the persisted uploaded tag held in the file's sticky bit. -/
structure ChunkFile where
  data : List Nat
  uploaded : Bool
deriving DecidableEq, Repr

/-- The image parameters relevant to `ll-modified.c`: the fixed chunk size
and the image size at mount time (`img->chunk_size`, `img->initial_size`). -/
structure Image where
  chunkSize : Nat
  initialSize : Nat
deriving DecidableEq, Repr

/-- The mutable state of the modified-chunk store: the sharded on-disk
chunk files (keyed by chunk index, since `get_file` is injective), the two
bitmaps and the two statistics counters. -/
structure St where
  files : Nat → Option ChunkFile
  modifiedMap : Nat → Bool
  uploadedMap : Nat → Bool
  chunksModified : Int
  chunksModifiedNotUploaded : Int

/-- The state right after `_vmnetfs_ll_modified_init` on an empty cache
directory: no files, both bitmaps all-clear, both counters zero. -/
def stEmptyState : St :=
  { files := fun _ => none
    modifiedMap := fun _ => false
    uploadedMap := fun _ => false
    chunksModified := 0
    chunksModifiedNotUploaded := 0 }

/-- CHUNKS_PER_DIR from the source. -/
def chunksPerDir : Nat := 4096

/-- Translation of `get_dir_num`: `chunk / CHUNKS_PER_DIR * CHUNKS_PER_DIR`. -/
def getDirNum (chunk : Nat) : Nat :=
  chunk / chunksPerDir * chunksPerDir

/-- Ceiling division `(a + b - 1) / b`, the idiom the source uses for chunk
counts such as `(size + img->chunk_size - 1) / img->chunk_size`. -/
def ceilDiv (a b : Nat) : Nat :=
  (a + b - 1) / b

/-- Wrapping 64-bit unsigned subtraction, as in the C expression
`img->initial_size - chunk * img->chunk_size` on `uint64_t`. -/
def usub64 (a b : Nat) : Nat :=
  (((a : Int) - (b : Int)) % ((2 : Int) ^ 64)).toNat

/-- Translation of `is_uploaded`: `stat` the chunk file and test `S_ISVTX`.
For a missing file `stat` fails; the test is modelled as `false` (the only
call sites in the program apply it to files that exist, except the
post-`remove` call in `_vmnetfs_ll_modified_set_size`). -/
def isUploadedSt (st : St) (chunk : Nat) : Bool :=
  match st.files chunk with
  | some f => f.uploaded
  | none => false

/-- Translation of `set_uploaded_file`: chmod the sticky bit on or off,
keeping the other permission bits.  A no-op if the file does not exist
(`stat`/`chmod` fail silently in the source). -/
def setFileFlag (st : St) (chunk : Nat) (b : Bool) : St :=
  match st.files chunk with
  | none => st
  | some f => { st with files := upd st.files chunk (some ⟨f.data, b⟩) }

/-- POSIX `ftruncate` on file contents: shorten to `n` bytes, or zero-fill
up to `n` bytes. -/
def ftruncateData (l : List Nat) (n : Nat) : List Nat :=
  l.take n ++ List.replicate (n - l.length) 0

/-- POSIX `pwrite` of `data` at `offset` on file contents: zero-fill a hole
up to `offset` if the file is shorter, overlay `data`, keep the tail. -/
def pwriteData (l : List Nat) (data : List Nat) (offset : Nat) : List Nat :=
  (l.take offset ++ List.replicate (offset - l.length) 0)
    ++ data ++ l.drop (offset + data.length)

/-- Effect of `open(file, O_CREAT | O_WRONLY, S_IRUSR | S_IWUSR)`: an
existing file is kept as is, a missing file is created empty with plain
permissions (no sticky bit). -/
def openCreat (f : Option ChunkFile) : ChunkFile :=
  f.getD ⟨[], false⟩

/-- The four `g_assert` conditions at the top of
`_vmnetfs_ll_modified_write_chunk` (source lines 214-219).  Note that the
full-extent condition uses `img->initial_size`, and that the subtraction
`img->initial_size - chunk * img->chunk_size` is 64-bit unsigned. -/
def writeAssert (img : Image) (st : St) (imageSize chunk offset length : Nat) : Bool :=
  (st.modifiedMap chunk
      || (offset == 0
          && length == min img.chunkSize (usub64 img.initialSize (chunk * img.chunkSize))))
    && decide (offset < img.chunkSize)
    && decide (offset + length ≤ img.chunkSize)
    && decide (chunk * img.chunkSize + offset + length ≤ imageSize)

/-- Translation of `_vmnetfs_ll_modified_write_chunk`.  The written length
is `data.length`.  After a successful `pwrite`: a first write to the chunk
bumps both counters; a write to an already-modified chunk whose persisted
uploaded tag is set re-reads and rewrites the file (asserting the read
length equals `chunk_size`, and clearing the sticky bit as a side effect of
`g_file_set_contents`), bumps the not-uploaded counter and clears the
uploaded bit via `notify_plus_minus(..., 0)`; finally the modified bit is
set. -/
def writeChunk (img : Image) (st : St) (imageSize : Nat) (data : List Nat)
    (chunk offset : Nat) : Option St :=
  if writeAssert img st imageSize chunk offset data.length then
    let f0 := openCreat (st.files chunk)
    let f1 : ChunkFile := ⟨pwriteData f0.data data offset, f0.uploaded⟩
    if st.modifiedMap chunk then
      if f1.uploaded then
        if f1.data.length == img.chunkSize then
          some { st with
            files := upd st.files chunk (some ⟨f1.data, false⟩)
            uploadedMap := upd st.uploadedMap chunk false
            chunksModifiedNotUploaded := st.chunksModifiedNotUploaded + 1
            modifiedMap := upd st.modifiedMap chunk true }
        else
          none
      else
        some { st with
          files := upd st.files chunk (some f1)
          modifiedMap := upd st.modifiedMap chunk true }
    else
      some { st with
        files := upd st.files chunk (some f1)
        modifiedMap := upd st.modifiedMap chunk true
        chunksModified := st.chunksModified + 1
        chunksModifiedNotUploaded := st.chunksModifiedNotUploaded + 1 }
  else
    none

/-- One iteration of the grow loop of `_vmnetfs_ll_modified_set_size`
(source lines 296-319): open/create the chunk file, `ftruncate` it to
exactly `chunk_size`, and bump both counters.  No bitmap is touched. -/
def growStep (img : Image) (st : St) (chunk : Nat) : St :=
  let f0 := openCreat (st.files chunk)
  let f1 : ChunkFile := ⟨ftruncateData f0.data img.chunkSize, f0.uploaded⟩
  { st with
    files := upd st.files chunk (some f1)
    chunksModified := st.chunksModified + 1
    chunksModifiedNotUploaded := st.chunksModifiedNotUploaded + 1 }

/-- The shrink special case of `_vmnetfs_ll_modified_set_size` (source
lines 322-348), applied to `chunk = new_chunks`: if that chunk's file
exists and `partial = chunk * chunk_size - new_size` is positive, truncate
the file down to `chunk_size - partial` bytes and immediately re-extend it
to `chunk_size` (zero-filling the cut tail). -/
def shrinkBoundary (img : Image) (st : St) (newSize chunk : Nat) : St :=
  match st.files chunk with
  | none => st
  | some f =>
    let cut := chunk * img.chunkSize - newSize
    if cut > 0 then
      let keep := img.chunkSize - cut
      let f1 : ChunkFile := ⟨ftruncateData (ftruncateData f.data keep) img.chunkSize, f.uploaded⟩
      { st with files := upd st.files chunk (some f1) }
    else
      st

/-- One iteration of the shrink delete loop of
`_vmnetfs_ll_modified_set_size` (source lines 349-367): if the chunk file
exists, `remove` it, decrement `chunks_modified`, and then test
`is_uploaded` — on the file that was just removed, so the test is modelled
as `false` — incrementing `chunks_modified_not_uploaded` when it reports
not uploaded. -/
def shrinkDeleteStep (st : St) (chunk : Nat) : St :=
  match st.files chunk with
  | none => st
  | some _ =>
    let st1 : St := { st with
      files := upd st.files chunk none
      chunksModified := st.chunksModified - 1 }
    if isUploadedSt st1 chunk then
      st1
    else
      { st1 with chunksModifiedNotUploaded := st1.chunksModifiedNotUploaded + 1 }

/-- The half-open index range `[a, a + n)` as a list, for the `for` loops
of the source. -/
def natRange : Nat → Nat → List Nat
  | _, 0 => []
  | a, n + 1 => a :: natRange (a + 1) n

/-- Number of chunk indices in `[a, a + n)` whose file exists. -/
def countExisting (f : Nat → Option ChunkFile) : Nat → Nat → Nat
  | _, 0 => 0
  | a, n + 1 => (if (f a).isSome then 1 else 0) + countExisting f (a + 1) n

/-- Translation of `_vmnetfs_ll_modified_set_size`.  The `g_assert` at the
top (grow, or boundary-aligned shrink, or the chunk containing the new end
of image is modified) is modelled as `none` on failure.  Growing runs the
grow loop for chunks `[current_chunks, new_chunks)`; shrinking runs the
boundary special case on `chunk = new_chunks` and then the delete loop for
chunks `[new_chunks + 1, current_chunks)`. -/
def setSize (img : Image) (st : St) (currentSize newSize : Nat) : Option St :=
  if decide (newSize > currentSize)
      || (newSize % img.chunkSize == 0)
      || st.modifiedMap (newSize / img.chunkSize) then
    let currentChunks := ceilDiv currentSize img.chunkSize
    let newChunks := ceilDiv newSize img.chunkSize
    if newSize > currentSize then
      some ((natRange currentChunks (newChunks - currentChunks)).foldl (growStep img) st)
    else
      let st1 := shrinkBoundary img st newSize newChunks
      some ((natRange (newChunks + 1) (currentChunks - (newChunks + 1))).foldl shrinkDeleteStep st1)
  else
    none

/-- One chunk-file iteration of the sweep in `_vmnetfs_ll_modified_upload`
(source lines 403-458): skip the chunk if its persisted uploaded tag is
already set; otherwise set the tag (before transmitting), hand the file to
`_vmnetfs_io_put_data` — whose outcome `putOk` is ignored, the source's
`if (*err != NULL) { }` has an empty body — and then unconditionally
decrement `chunks_modified_not_uploaded` and set the uploaded bit via
`notify_plus_minus(..., 1)`. -/
def uploadChunkStep (st : St) (chunk : Nat) (putOk : Bool) : St :=
  if isUploadedSt st chunk then
    st
  else
    let st1 := setFileFlag st chunk true
    let _ := putOk
    { st1 with
      chunksModifiedNotUploaded := st1.chunksModifiedNotUploaded - 1
      uploadedMap := upd st1.uploadedMap chunk true }

/-- Accumulating decimal digit-run parse: consumes the leading digits and
returns the accumulated value (over unbounded naturals) together with the
unconsumed suffix.  Helper for `strtoull10`. -/
def parseDigits : List Char → Nat → Nat × List Char
  | [], acc => (acc, [])
  | c :: rest, acc =>
    if c.isDigit then parseDigits rest (acc * 10 + (c.toNat - 48))
    else (acc, c :: rest)

/-- The whitespace characters `strtoull` skips in the C locale
(`isspace`): space, tab, newline, vertical tab, form feed, carriage
return. -/
def isSpaceC (c : Char) : Bool :=
  c = ' ' || c = '\t' || c = '\n' || c = '\x0b' || c = '\x0c' || c = '\r'

/-- Translation of `g_ascii_strtoull(file, &endptr, 10)`, which behaves
like `strtoull` with base 10 in the C locale: skip leading whitespace,
consume an optional `+` or `-` sign, then a decimal digit run.  Returns
the converted value and the unconsumed suffix (the `endptr` position).
If no digit follows the optional sign and whitespace, the conversion
fails: the value is 0 and `endptr` is reset to the start of the input.  A
magnitude beyond `2^64 - 1` is out of range and yields `2^64 - 1`
(`ULLONG_MAX`); otherwise a `-` sign negates the value modulo `2^64`, as
conversion to unsigned does. -/
def strtoull10 (name : List Char) : Nat × List Char :=
  let afterWs := name.dropWhile isSpaceC
  let neg : Bool :=
    match afterWs with
    | '-' :: _ => true
    | _ => false
  let afterSign :=
    match afterWs with
    | '-' :: rest => rest
    | '+' :: rest => rest
    | _ => afterWs
  match afterSign with
  | [] => (0, name)
  | c :: _ =>
    if c.isDigit then
      let p := parseDigits afterSign 0
      if p.1 ≥ 2 ^ 64 then (2 ^ 64 - 1, p.2)
      else if neg then ((2 ^ 64 - p.1) % 2 ^ 64, p.2)
      else (p.1, p.2)
    else
      (0, name)

/-- The chunk index a file name denotes: the `uint64` value
`g_ascii_strtoull` returns for it. -/
def chunkOf (name : List Char) : Nat :=
  (strtoull10 name).1

/-- Validity of one cache entry name in shard `dirNum`, collecting the two
checks of `set_present_from_directory` (source lines 106-120): the parsed
chunk is not `> chunks` where `chunks = ceil(initial_size / chunk_size)`,
the name is nonempty and fully numeric, and the shard matches
`get_dir_num(chunk)`. -/
def entryOk (img : Image) (dirNum : Nat) (name : List Char) : Bool :=
  let chunk := chunkOf name
  let chunks := ceilDiv img.initialSize img.chunkSize
  decide (chunk ≤ chunks)
    && !name.isEmpty
    && (strtoull10 name).2.isEmpty
    && (dirNum == getDirNum chunk)

/-- Error kinds of the recovery scan; both `g_set_error` sites in
`set_present_from_directory` use `VMNETFS_IO_ERROR_INVALID_CACHE`. -/
inductive VmErr where
  | invalidCache
deriving DecidableEq, Repr

/-- Processing of one file name by `set_present_from_directory` (source
lines 105-131): reject out-of-range (`chunk > chunks`, reported as a stale
entry) and malformed or misplaced names with the invalid-cache error;
otherwise set the modified bit, increment `chunks_modified`, and either
increment `chunks_modified_not_uploaded` (persisted uploaded tag clear) or
set the uploaded bit via `notify_plus_minus(..., 1)` (tag set). -/
def scanEntry (img : Image) (dirNum : Nat) (name : List Char) (st : St) :
    Except VmErr St :=
  let chunk := chunkOf name
  let chunks := ceilDiv img.initialSize img.chunkSize
  if chunk > chunks then
    .error .invalidCache
  else if name.isEmpty || !(strtoull10 name).2.isEmpty
      || dirNum != getDirNum chunk then
    .error .invalidCache
  else
    let st1 : St := { st with
      modifiedMap := upd st.modifiedMap chunk true
      chunksModified := st.chunksModified + 1 }
    if !isUploadedSt st chunk then
      .ok { st1 with chunksModifiedNotUploaded := st1.chunksModifiedNotUploaded + 1 }
    else
      .ok { st1 with uploadedMap := upd st1.uploadedMap chunk true }

/-- The loop of `set_present_from_directory` over the names a shard
directory contains, aborting on the first invalid entry. -/
def scanDir (img : Image) (dirNum : Nat) (names : List (List Char)) (st : St) :
    Except VmErr St :=
  match names with
  | [] => .ok st
  | n :: rest =>
    match scanEntry img dirNum n st with
    | .error e => .error e
    | .ok st1 => scanDir img dirNum rest st1

/-- The shard loop of `_vmnetfs_ll_modified_init` (source lines 156-169):
each shard is the parsed numeric name of a top-level directory paired with
the file names it contains (top-level entries that are non-numeric or not
directories are skipped by the source and therefore not listed here); the
bitmaps start all-clear and a failing shard scan aborts initialization. -/
def modifiedInit (img : Image) (shards : List (Nat × List (List Char))) (st : St) :
    Except VmErr St :=
  match shards with
  | [] => .ok st
  | (dn, names) :: rest =>
    match scanDir img dn names st with
    | .error e => .error e
    | .ok st1 => modifiedInit img rest st1

/-- The write precondition as claim C6 and spec section 4.2 state it,
with the full extent computed from the image size at the time of the
write.  Stated from the spec's words, for comparison with `writeAssert`,
which the source builds from `img->initial_size` instead. -/
def specWritePre (img : Image) (st : St) (imageSize chunk offset length : Nat) : Bool :=
  st.modifiedMap chunk
    || (offset == 0
        && length == min img.chunkSize (usub64 imageSize (chunk * img.chunkSize)))

/-- Image with chunk size 4 and mount-time size 12 bytes (3 chunks). -/
def imgA : Image := ⟨4, 12⟩

/-- Image with chunk size 4 and mount-time size 6 bytes, so the last chunk
(index 1) is a partial chunk of 2 valid bytes. -/
def img6 : Image := ⟨4, 6⟩

/-- Image with chunk size 4 and mount-time size 4 bytes (one chunk). -/
def img44 : Image := ⟨4, 4⟩

/-- State with chunk files 0, 1, 2 present, each holding bytes
`[9, 9, 9, 9]`, all three modified and none uploaded, counters 3 and 3. -/
def st3 : St :=
  { files := fun c => if c < 3 then some ⟨[9, 9, 9, 9], false⟩ else none
    modifiedMap := fun c => c < 3
    uploadedMap := fun _ => false
    chunksModified := 3
    chunksModifiedNotUploaded := 3 }

/-- State with chunk files 0, 1, 2 present, chunks 1 and 2 uploaded (tag
and bit), counters 3 and 1. -/
def stc5 : St :=
  { files := fun c =>
      if c = 0 then some ⟨[1, 1, 1, 1], false⟩
      else if c = 1 then some ⟨[2, 2, 2, 2], true⟩
      else if c = 2 then some ⟨[3, 3, 3, 3], true⟩
      else none
    modifiedMap := fun c => c < 3
    uploadedMap := fun c => c = 1 ∨ c = 2
    chunksModified := 3
    chunksModifiedNotUploaded := 1 }

/-- State with one modified, not yet uploaded chunk 0. -/
def stU : St :=
  { files := fun c => if c = 0 then some ⟨[5, 5, 5, 5], false⟩ else none
    modifiedMap := fun c => c = 0
    uploadedMap := fun _ => false
    chunksModified := 1
    chunksModifiedNotUploaded := 1 }

/-- State with one modified and uploaded chunk 0 of full size. -/
def stC8 : St :=
  { files := fun c => if c = 0 then some ⟨[1, 2, 3, 4], true⟩ else none
    modifiedMap := fun c => c = 0
    uploadedMap := fun c => c = 0
    chunksModified := 1
    chunksModifiedNotUploaded := 0 }

/-- Claim C1.  The claimed invariant `modified[c] = true` iff a chunk file
exists for `c` with size exactly `chunk_size` is broken by the code: with
chunk size 4 and mount-time size 6, the first (full-valid-extent) write of
2 bytes to the last partial chunk 1 succeeds, sets `modified[1]`, and
leaves the chunk file with size 2, not `chunk_size = 4` — the write path
never extends the file to `chunk_size`. -/
theorem c1_last_chunk_write_leaves_short_file :
    (writeChunk img6 stEmptyState 6 [7, 7] 1 0).map
        (fun s => (s.modifiedMap 1, (s.files 1).map (fun f => f.data.length)))
      = some (true, some 2)
    ∧ img6.chunkSize = 4 := by
  constructor
  · decide
  · decide

/-- Claim C2.  The claimed counter invariant `chunks_modified =
count(modified)` is broken by the code: growing from size 0 to 4 from the
empty state increments `chunks_modified` to 1 and creates chunk file 0,
but the grow loop never sets the modified bit, so the number of set
modified bits stays 0. -/
theorem c2_grow_breaks_counter_bitmap_match :
    (setSize imgA stEmptyState 0 4).map
        (fun s => (s.chunksModified, s.modifiedMap 0, (s.files 0).isSome))
      = some (1, false, true) := by
  decide

/-- Claim C3.  The claimed anti-data-leak truncation is applied to the
wrong chunk: shrinking 12 → 5 must truncate-and-re-extend the file of the
straddling chunk `5 / 4 = 1` (the chunk the source's own comment and
assertion at lines 277-282 designate), zeroing its bytes past offset 1;
instead the source applies the dance to chunk `new_chunks = 2`.  Starting
from three chunk files full of 9s, after shrinking to 5 and growing back
to 12 the chunk 1 file still holds its pre-shrink bytes `[9, 9, 9, 9]`
(the claim demands `[9, 0, 0, 0]`), and chunk 2 retains its pre-shrink
byte 9 at offset 0, so re-expansion reveals stale data. -/
theorem c3_shrink_regrow_reveals_stale_bytes :
    ((setSize imgA st3 12 5).bind (fun s => setSize imgA s 5 12)).map
        (fun s => ((s.files 1).map ChunkFile.data, (s.files 2).map ChunkFile.data))
      = some (some [9, 9, 9, 9], some [9, 0, 0, 0]) := by
  decide

/-- Claim C4.  Growing is claimed to mark every newly covered chunk
modified; the grow loop of the source (lines 295-319) creates the files,
zero-fills them to `chunk_size` and increments both counters, but never
calls `_vmnetfs_bit_set` on the modified map: after growing 0 → 8 from the
empty state both new chunks still have their modified bit clear. -/
theorem c4_grow_leaves_modified_bit_clear :
    (setSize imgA stEmptyState 0 8).map
        (fun s => (s.modifiedMap 0, s.modifiedMap 1, (s.files 0).map ChunkFile.data,
                   s.chunksModified, s.chunksModifiedNotUploaded))
      = some (false, false, some [0, 0, 0, 0], 2, 2) := by
  decide

/-- Claim C5, counterexample.  Shrinking 12 → 4 makes chunk 0 the only
valid chunk (`new_chunks = ceilDiv 4 4 = 1`), so chunks 1 and 2 — both
uploaded here — lie strictly beyond the new last chunk and the claim says
both files are deleted with `chunks_modified` untouched (they were
uploaded) and `chunks_modified_not_uploaded` unchanged.  The code instead
keeps chunk 1's file (the delete loop starts at `new_chunks + 1 = 2`),
decrements `chunks_modified` for the deleted uploaded chunk 2, and
increments `chunks_modified_not_uploaded` for it (the uploaded test runs
after `remove`, on a file that no longer exists). -/
theorem c5_claim_counterexample :
    (setSize imgA stc5 12 4).map
        (fun s => ((s.files 1).isSome, (s.files 2).isSome,
                   s.chunksModified, s.chunksModifiedNotUploaded))
      = some (true, false, 2, 2)
    ∧ ceilDiv 4 imgA.chunkSize = 1 := by
  constructor
  · decide
  · decide

/-- Claim C6, counterexample.  The claim states the first-write full-extent
precondition relative to the image size at the time of the write: with
chunk size 4, mount-time size 4 and current image size 8, a first write to
unmodified chunk 1 at offset 0 of length `min(4, 8 - 4) = 4` satisfies the
claimed precondition, yet the source's assertion computes the extent from
`img->initial_size` (`min(4, 4 - 4) = 0`) and rejects the write. -/
theorem c6_claim_counterexample :
    specWritePre img44 stEmptyState 8 1 0 4 = true
    ∧ stEmptyState.modifiedMap 1 = false
    ∧ (writeChunk img44 stEmptyState 8 [0, 0, 0, 0] 1 0).isSome = false := by
  refine ⟨by decide, by decide, by decide⟩

/-- Claim C7.  The claim says the pool put failure leaves the counters
unchanged.  The source ignores the outcome of `_vmnetfs_io_put_data` (its
`if (*err != NULL)` check has an empty body): processing not-yet-uploaded
chunk 0 with a failing put still decrements
`chunks_modified_not_uploaded` from 1 to 0, sets the uploaded bit, and
leaves the persisted uploaded tag set. -/
theorem c7_upload_failure_still_marks_uploaded :
    (uploadChunkStep stU 0 false).chunksModifiedNotUploaded = 0
    ∧ (uploadChunkStep stU 0 false).uploadedMap 0 = true
    ∧ ((uploadChunkStep stU 0 false).files 0).map ChunkFile.uploaded = some true := by
  refine ⟨by decide, by decide, by decide⟩

theorem shrinkDeleteStep_files (st : St) (k c : Nat) :
    (shrinkDeleteStep st k).files c = if c = k then none else st.files c := by
  by_cases hc : c = k
  · subst hc
    cases h : st.files c <;> simp [shrinkDeleteStep, h, isUploadedSt, upd]
  · cases h : st.files k <;> simp [shrinkDeleteStep, h, isUploadedSt, upd, hc]

theorem shrinkDeleteStep_modifiedMap (st : St) (k : Nat) :
    (shrinkDeleteStep st k).modifiedMap = st.modifiedMap := by
  cases h : st.files k <;> simp [shrinkDeleteStep, h, isUploadedSt, upd]

theorem shrinkDeleteStep_uploadedMap (st : St) (k : Nat) :
    (shrinkDeleteStep st k).uploadedMap = st.uploadedMap := by
  cases h : st.files k <;> simp [shrinkDeleteStep, h, isUploadedSt, upd]

theorem shrinkDeleteStep_cm (st : St) (k : Nat) :
    (shrinkDeleteStep st k).chunksModified
      = st.chunksModified - (if (st.files k).isSome then 1 else 0) := by
  cases h : st.files k <;> simp [shrinkDeleteStep, h, isUploadedSt, upd]

theorem shrinkDeleteStep_cmnu (st : St) (k : Nat) :
    (shrinkDeleteStep st k).chunksModifiedNotUploaded
      = st.chunksModifiedNotUploaded + (if (st.files k).isSome then 1 else 0) := by
  cases h : st.files k <;> simp [shrinkDeleteStep, h, isUploadedSt, upd]

theorem countExisting_congr {f g : Nat → Option ChunkFile} :
    ∀ (n a : Nat), (∀ c, a ≤ c → c < a + n → f c = g c) →
      countExisting f a n = countExisting g a n := by
  intro n
  induction n with
  | zero => intro a _; simp [countExisting]
  | succ m ih =>
    intro a h
    simp only [countExisting]
    rw [h a le_rfl (by omega), ih (a + 1) (fun c hc1 hc2 => h c (by omega) (by omega))]

theorem foldDel_files :
    ∀ (n a : Nat) (st : St) (c : Nat),
      ((natRange a n).foldl shrinkDeleteStep st).files c
        = if a ≤ c ∧ c < a + n then none else st.files c := by
  intro n
  induction n with
  | zero =>
    intro a st c
    simp only [natRange, List.foldl]
    rw [if_neg]; omega
  | succ m ih =>
    intro a st c
    simp only [natRange, List.foldl]
    rw [ih, shrinkDeleteStep_files]
    by_cases h1 : a + 1 ≤ c ∧ c < a + 1 + m
    · rw [if_pos h1, if_pos (by omega)]
    · rw [if_neg h1]
      by_cases h2 : c = a
      · rw [if_pos h2, if_pos (by omega)]
      · rw [if_neg h2, if_neg (by omega)]

theorem foldDel_modifiedMap :
    ∀ (n a : Nat) (st : St),
      ((natRange a n).foldl shrinkDeleteStep st).modifiedMap = st.modifiedMap := by
  intro n
  induction n with
  | zero => intro a st; simp [natRange]
  | succ m ih =>
    intro a st
    simp only [natRange, List.foldl]
    rw [ih, shrinkDeleteStep_modifiedMap]

theorem foldDel_uploadedMap :
    ∀ (n a : Nat) (st : St),
      ((natRange a n).foldl shrinkDeleteStep st).uploadedMap = st.uploadedMap := by
  intro n
  induction n with
  | zero => intro a st; simp [natRange]
  | succ m ih =>
    intro a st
    simp only [natRange, List.foldl]
    rw [ih, shrinkDeleteStep_uploadedMap]

theorem foldDel_cm :
    ∀ (n a : Nat) (st : St),
      ((natRange a n).foldl shrinkDeleteStep st).chunksModified
        = st.chunksModified - (countExisting st.files a n : Int) := by
  intro n
  induction n with
  | zero => intro a st; simp [natRange, countExisting]
  | succ m ih =>
    intro a st
    simp only [natRange, List.foldl]
    rw [ih, shrinkDeleteStep_cm]
    have hcong : countExisting (shrinkDeleteStep st a).files (a + 1) m
        = countExisting st.files (a + 1) m := by
      apply countExisting_congr
      intro c hc1 _
      rw [shrinkDeleteStep_files, if_neg (by omega)]
    rw [hcong]
    simp only [countExisting]
    by_cases h : (st.files a).isSome
    · simp only [h, if_true]
      push_cast
      ring
    · simp only [h, if_false]
      push_cast
      ring

theorem foldDel_cmnu :
    ∀ (n a : Nat) (st : St),
      ((natRange a n).foldl shrinkDeleteStep st).chunksModifiedNotUploaded
        = st.chunksModifiedNotUploaded + (countExisting st.files a n : Int) := by
  intro n
  induction n with
  | zero => intro a st; simp [natRange, countExisting]
  | succ m ih =>
    intro a st
    simp only [natRange, List.foldl]
    rw [ih, shrinkDeleteStep_cmnu]
    have hcong : countExisting (shrinkDeleteStep st a).files (a + 1) m
        = countExisting st.files (a + 1) m := by
      apply countExisting_congr
      intro c hc1 _
      rw [shrinkDeleteStep_files, if_neg (by omega)]
    rw [hcong]
    simp only [countExisting]
    by_cases h : (st.files a).isSome
    · simp only [h, if_true]
      push_cast
      ring
    · simp only [h, if_false]
      push_cast
      ring

theorem growStep_modifiedMap (img : Image) (st : St) (k : Nat) :
    (growStep img st k).modifiedMap = st.modifiedMap := rfl

theorem growStep_uploadedMap (img : Image) (st : St) (k : Nat) :
    (growStep img st k).uploadedMap = st.uploadedMap := rfl

theorem foldGrow_modifiedMap (img : Image) :
    ∀ (n a : Nat) (st : St),
      ((natRange a n).foldl (growStep img) st).modifiedMap = st.modifiedMap := by
  intro n
  induction n with
  | zero => intro a st; simp [natRange]
  | succ m ih =>
    intro a st
    simp only [natRange, List.foldl]
    rw [ih, growStep_modifiedMap]

theorem foldGrow_uploadedMap (img : Image) :
    ∀ (n a : Nat) (st : St),
      ((natRange a n).foldl (growStep img) st).uploadedMap = st.uploadedMap := by
  intro n
  induction n with
  | zero => intro a st; simp [natRange]
  | succ m ih =>
    intro a st
    simp only [natRange, List.foldl]
    rw [ih, growStep_uploadedMap]

theorem shrinkBoundary_modifiedMap (img : Image) (st : St) (newSize k : Nat) :
    (shrinkBoundary img st newSize k).modifiedMap = st.modifiedMap := by
  cases h : st.files k <;> simp [shrinkBoundary, h]
  split <;> rfl

theorem shrinkBoundary_uploadedMap (img : Image) (st : St) (newSize k : Nat) :
    (shrinkBoundary img st newSize k).uploadedMap = st.uploadedMap := by
  cases h : st.files k <;> simp [shrinkBoundary, h]
  split <;> rfl

theorem shrinkBoundary_cm (img : Image) (st : St) (newSize k : Nat) :
    (shrinkBoundary img st newSize k).chunksModified = st.chunksModified := by
  cases h : st.files k <;> simp [shrinkBoundary, h]
  split <;> rfl

theorem shrinkBoundary_cmnu (img : Image) (st : St) (newSize k : Nat) :
    (shrinkBoundary img st newSize k).chunksModifiedNotUploaded
      = st.chunksModifiedNotUploaded := by
  cases h : st.files k <;> simp [shrinkBoundary, h]
  split <;> rfl

theorem shrinkBoundary_files_ne (img : Image) (st : St) (newSize k c : Nat)
    (hc : c ≠ k) :
    (shrinkBoundary img st newSize k).files c = st.files c := by
  cases h : st.files k <;> simp [shrinkBoundary, h]
  split
  · simp [upd, hc]
  · rfl

theorem shrinkBoundary_isSome (img : Image) (st : St) (newSize k : Nat) :
    ((shrinkBoundary img st newSize k).files k).isSome = (st.files k).isSome := by
  cases h : st.files k <;> simp [shrinkBoundary, h]
  split <;> simp [upd, h]

theorem setSize_grow_eq (img : Image) (st : St) (cur new : Nat) (h1 : new > cur) :
    setSize img st cur new
      = some ((natRange (ceilDiv cur img.chunkSize)
          (ceilDiv new img.chunkSize - ceilDiv cur img.chunkSize)).foldl (growStep img) st) := by
  simp [setSize, h1]

theorem setSize_shrink_eq (img : Image) (st : St) (cur new : Nat) (h1 : ¬ new > cur)
    (hs : (setSize img st cur new).isSome = true) :
    setSize img st cur new
      = some ((natRange (ceilDiv new img.chunkSize + 1)
            (ceilDiv cur img.chunkSize - (ceilDiv new img.chunkSize + 1))).foldl
          shrinkDeleteStep (shrinkBoundary img st new (ceilDiv new img.chunkSize))) := by
  cases hgb : (decide (new > cur)
      || (new % img.chunkSize == 0)
      || st.modifiedMap (new / img.chunkSize)) with
  | false =>
    exfalso
    unfold setSize at hs
    rw [hgb] at hs
    simp at hs
  | true =>
    unfold setSize
    rw [hgb, if_pos rfl, if_neg h1]

/-- Claim C10.  `_vmnetfs_ll_modified_set_size` never mutates the modified
or uploaded bitmaps: for every call that runs to completion (an assertion
failure aborts the process and yields no state at all), every bit of both
bitmaps has the same value after the call as before it — the grow loop,
the boundary truncation and the delete loop only touch the counters and
the on-disk files. -/
theorem c10_set_size_preserves_bitmaps (img : Image) (st : St) (cur new : Nat)
    (hs : (setSize img st cur new).isSome = true) :
    ∀ c, ((setSize img st cur new).getD stEmptyState).modifiedMap c = st.modifiedMap c
      ∧ ((setSize img st cur new).getD stEmptyState).uploadedMap c = st.uploadedMap c := by
  intro c
  by_cases h1 : new > cur
  · rw [setSize_grow_eq img st cur new h1]
    simp only [Option.getD_some]
    rw [foldGrow_modifiedMap, foldGrow_uploadedMap]
    exact ⟨rfl, rfl⟩
  · rw [setSize_shrink_eq img st cur new h1 hs]
    simp only [Option.getD_some]
    rw [foldDel_modifiedMap, foldDel_uploadedMap,
        shrinkBoundary_modifiedMap, shrinkBoundary_uploadedMap]
    exact ⟨rfl, rfl⟩

/-- Witness for C10 at a concrete shrink call. -/
theorem c10_set_size_preserves_bitmaps_witness :
    ((setSize imgA st3 12 5).getD stEmptyState).modifiedMap 1 = st3.modifiedMap 1
    ∧ ((setSize imgA st3 12 5).getD stEmptyState).uploadedMap 1 = st3.uploadedMap 1 :=
  c10_set_size_preserves_bitmaps imgA st3 12 5 (by decide) 1

/-- Claim C5, amended.  For every shrink (`new_size ≤ current_size`) that
runs to completion, the delete loop removes exactly the chunk files with
indices in `[new_chunks + 1, current_chunks)`; the file of chunk
`new_chunks` itself is never deleted even though it lies beyond the new
end of image; `chunks_modified` is decremented once per deleted file
regardless of its upload state; and `chunks_modified_not_uploaded` is
incremented once per deleted file (the source tests `is_uploaded` after
`remove`, on a file that no longer exists, so the test reports
not-uploaded). -/
theorem c5_shrink_delete_loop (img : Image) (st : St) (cur new : Nat)
    (h1 : ¬ new > cur)
    (hs : (setSize img st cur new).isSome = true) :
    (∀ c, ceilDiv new img.chunkSize + 1 ≤ c → c < ceilDiv cur img.chunkSize →
        ((setSize img st cur new).getD stEmptyState).files c = none)
    ∧ ((st.files (ceilDiv new img.chunkSize)).isSome = true →
        (((setSize img st cur new).getD stEmptyState).files (ceilDiv new img.chunkSize)).isSome = true)
    ∧ ((setSize img st cur new).getD stEmptyState).chunksModified
        = st.chunksModified
          - (countExisting st.files (ceilDiv new img.chunkSize + 1)
              (ceilDiv cur img.chunkSize - (ceilDiv new img.chunkSize + 1)) : Int)
    ∧ ((setSize img st cur new).getD stEmptyState).chunksModifiedNotUploaded
        = st.chunksModifiedNotUploaded
          + (countExisting st.files (ceilDiv new img.chunkSize + 1)
              (ceilDiv cur img.chunkSize - (ceilDiv new img.chunkSize + 1)) : Int) := by
  rw [setSize_shrink_eq img st cur new h1 hs]
  simp only [Option.getD_some]
  have hcong : countExisting (shrinkBoundary img st new (ceilDiv new img.chunkSize)).files
      (ceilDiv new img.chunkSize + 1)
      (ceilDiv cur img.chunkSize - (ceilDiv new img.chunkSize + 1))
      = countExisting st.files (ceilDiv new img.chunkSize + 1)
        (ceilDiv cur img.chunkSize - (ceilDiv new img.chunkSize + 1)) := by
    apply countExisting_congr
    intro c hc1 _
    exact shrinkBoundary_files_ne img st new (ceilDiv new img.chunkSize) c (by omega)
  refine ⟨?_, ?_, ?_, ?_⟩
  · intro c hc1 hc2
    rw [foldDel_files]
    rw [if_pos]
    omega
  · intro hex
    rw [foldDel_files, if_neg (by omega)]
    rw [shrinkBoundary_isSome]
    exact hex
  · rw [foldDel_cm, shrinkBoundary_cm, hcong]
  · rw [foldDel_cmnu, shrinkBoundary_cmnu, hcong]

/-- Witness for the amended C5 at the concrete shrink 12 → 4 of
`c5_claim_counterexample`: chunk 2's file is deleted and both counters
move by the number of deleted files, here 1. -/
theorem c5_shrink_delete_loop_witness :
    ((setSize imgA stc5 12 4).getD stEmptyState).files 2 = none
    ∧ ((setSize imgA stc5 12 4).getD stEmptyState).chunksModified
        = stc5.chunksModified
          - (countExisting stc5.files (ceilDiv 4 imgA.chunkSize + 1)
              (ceilDiv 12 imgA.chunkSize - (ceilDiv 4 imgA.chunkSize + 1)) : Int)
    ∧ ((setSize imgA stc5 12 4).getD stEmptyState).chunksModifiedNotUploaded
        = stc5.chunksModifiedNotUploaded
          + (countExisting stc5.files (ceilDiv 4 imgA.chunkSize + 1)
              (ceilDiv 12 imgA.chunkSize - (ceilDiv 4 imgA.chunkSize + 1)) : Int) :=
  ⟨(c5_shrink_delete_loop imgA stc5 12 4 (by decide) (by decide)).1 2 (by decide) (by decide),
   (c5_shrink_delete_loop imgA stc5 12 4 (by decide) (by decide)).2.2.1,
   (c5_shrink_delete_loop imgA stc5 12 4 (by decide) (by decide)).2.2.2⟩

/-- Claim C6, amended.  Every write that passes the assertions of
`_vmnetfs_ll_modified_write_chunk` satisfies: either `modified[chunk]` was
already set, or the write starts at offset 0 with length
`min(chunk_size, initial_size - chunk * chunk_size)`, the full valid
extent computed from the mount-time `initial_size` in 64-bit unsigned
arithmetic — not from the current image size; every first write to an
unmodified chunk not matching that extent is rejected by the fail-fast
assertion. -/
theorem c6_write_precondition_uses_mount_size (img : Image) (st : St)
    (imageSize : Nat) (data : List Nat) (chunk offset : Nat)
    (hs : (writeChunk img st imageSize data chunk offset).isSome = true) :
    st.modifiedMap chunk = true
    ∨ (offset = 0
        ∧ data.length = min img.chunkSize (usub64 img.initialSize (chunk * img.chunkSize))) := by
  cases ha : writeAssert img st imageSize chunk offset data.length with
  | false =>
    exfalso
    unfold writeChunk at hs
    rw [ha] at hs
    simp at hs
  | true =>
    unfold writeAssert at ha
    simp only [Bool.and_eq_true, Bool.or_eq_true, beq_iff_eq, decide_eq_true_eq] at ha
    exact ha.1.1.1

/-- Witness for the amended C6: the first write of the 2 valid bytes of
the last partial chunk of `img6` succeeds, so it satisfies the
`initial_size`-based precondition. -/
theorem c6_write_precondition_uses_mount_size_witness :
    stEmptyState.modifiedMap 1 = true
    ∨ (0 = 0 ∧ ([3, 3] : List Nat).length
        = min img6.chunkSize (usub64 img6.initialSize (1 * img6.chunkSize))) :=
  c6_write_precondition_uses_mount_size img6 stEmptyState 6 [3, 3] 1 0 (by decide)

/-- Claim C8.  A successful write to a chunk that is already modified and
whose persisted uploaded tag is set clears the uploaded status — the
persisted per-file tag (rewritten file, sticky bit gone) and the in-memory
uploaded bit (the `notify_plus_minus(..., 0)` transition, which also
notifies observers) — and increments `chunks_modified_not_uploaded` by
one. -/
theorem c8_rewrite_of_uploaded_chunk_clears_upload_state (img : Image) (st : St)
    (imageSize : Nat) (data : List Nat) (chunk offset : Nat)
    (h1 : st.modifiedMap chunk = true)
    (h2 : isUploadedSt st chunk = true)
    (hs : (writeChunk img st imageSize data chunk offset).isSome = true) :
    (((writeChunk img st imageSize data chunk offset).getD stEmptyState).files chunk).map
        ChunkFile.uploaded = some false
    ∧ ((writeChunk img st imageSize data chunk offset).getD stEmptyState).uploadedMap chunk
        = false
    ∧ ((writeChunk img st imageSize data chunk offset).getD stEmptyState).chunksModifiedNotUploaded
        = st.chunksModifiedNotUploaded + 1 := by
  cases hf : st.files chunk with
  | none => simp [isUploadedSt, hf] at h2
  | some f =>
    have hu : f.uploaded = true := by simpa [isUploadedSt, hf] using h2
    cases ha : writeAssert img st imageSize chunk offset data.length with
    | false =>
      exfalso
      unfold writeChunk at hs
      rw [ha] at hs
      simp at hs
    | true =>
      by_cases hlen : (pwriteData f.data data offset).length = img.chunkSize
      · simp [writeChunk, ha, hf, openCreat, h1, hu, hlen, upd]
      · exfalso
        simp [writeChunk, ha, hf, openCreat, h1, hu, hlen] at hs

/-- Witness for C8: writing one byte to modified-and-uploaded chunk 0 of
`stC8`. -/
theorem c8_rewrite_of_uploaded_chunk_clears_upload_state_witness :
    (((writeChunk img44 stC8 4 [5] 0 0).getD stEmptyState).files 0).map
        ChunkFile.uploaded = some false
    ∧ ((writeChunk img44 stC8 4 [5] 0 0).getD stEmptyState).uploadedMap 0 = false
    ∧ ((writeChunk img44 stC8 4 [5] 0 0).getD stEmptyState).chunksModifiedNotUploaded
        = stC8.chunksModifiedNotUploaded + 1 :=
  c8_rewrite_of_uploaded_chunk_clears_upload_state img44 stC8 4 [5] 0 0
    (by decide) (by decide) (by decide)

theorem scanEntry_invalid (img : Image) (dn : Nat) (name : List Char) (st : St)
    (h : entryOk img dn name = false) :
    scanEntry img dn name st = .error VmErr.invalidCache := by
  by_cases hr : chunkOf name > ceilDiv img.initialSize img.chunkSize
  · simp only [scanEntry]
    rw [if_pos hr]
  · by_cases hb : (name.isEmpty || !(strtoull10 name).2.isEmpty
        || dn != getDirNum (chunkOf name)) = true
    · simp only [scanEntry]
      rw [if_neg hr, if_pos hb]
    · exfalso
      apply absurd h
      simp only [Bool.not_eq_false]
      have hb2 : (¬name = [] ∧ (strtoull10 name).2 = [])
          ∧ dn = getDirNum (chunkOf name) := by
        simpa [not_or] using hb
      simp [entryOk, Bool.and_eq_true, decide_eq_true_eq, beq_iff_eq,
        List.isEmpty_iff, hb2.1.1, hb2.1.2, hb2.2, Nat.le_of_not_lt hr]

theorem scanEntry_valid_eq (img : Image) (dn : Nat) (name : List Char) (st : St)
    (h : entryOk img dn name = true) :
    scanEntry img dn name st = .ok
      (if isUploadedSt st (chunkOf name) then
        { st with
          modifiedMap := upd st.modifiedMap (chunkOf name) true
          chunksModified := st.chunksModified + 1
          uploadedMap := upd st.uploadedMap (chunkOf name) true }
      else
        { st with
          modifiedMap := upd st.modifiedMap (chunkOf name) true
          chunksModified := st.chunksModified + 1
          chunksModifiedNotUploaded := st.chunksModifiedNotUploaded + 1 }) := by
  have h2 : (chunkOf name ≤ ceilDiv img.initialSize img.chunkSize)
      ∧ name.isEmpty = false
      ∧ (strtoull10 name).2.isEmpty = true
      ∧ dn = getDirNum (chunkOf name) := by
    simpa [entryOk, Bool.and_eq_true, Bool.not_eq_true', decide_eq_true_eq,
      beq_iff_eq, and_assoc] using h
  simp only [scanEntry]
  rw [if_neg (Nat.not_lt.mpr h2.1),
      if_neg (by simp [h2.2.1, h2.2.2.1, h2.2.2.2])]
  cases hu : isUploadedSt st (chunkOf name) <;> simp [hu]

theorem scanDir_invalid :
    ∀ (names : List (List Char)) (img : Image) (dn : Nat) (st : St)
      (name : List Char),
      name ∈ names → entryOk img dn name = false →
      scanDir img dn names st = .error VmErr.invalidCache := by
  intro names
  induction names with
  | nil =>
    intro img dn st name hmem _
    cases hmem
  | cons hd tl ih =>
    intro img dn st name hmem hbad
    cases hok : entryOk img dn hd with
    | false =>
      unfold scanDir
      rw [scanEntry_invalid img dn hd st hok]
    | true =>
      unfold scanDir
      rw [scanEntry_valid_eq img dn hd st hok]
      apply ih
      · cases hmem with
        | head => exact absurd hbad (by simp [hok])
        | tail _ hmem2 => exact hmem2
      · exact hbad

theorem modifiedInit_invalid :
    ∀ (shards : List (Nat × List (List Char))) (img : Image) (st : St)
      (dn : Nat) (names : List (List Char)) (name : List Char),
      (dn, names) ∈ shards → name ∈ names → entryOk img dn name = false →
      modifiedInit img shards st = .error VmErr.invalidCache := by
  intro shards
  induction shards with
  | nil =>
    intro img st dn names name hmem _ _
    cases hmem
  | cons hd tl ih =>
    intro img st dn names name hmem hmemn hbad
    obtain ⟨dn0, names0⟩ := hd
    cases hmem with
    | head =>
      unfold modifiedInit
      rw [scanDir_invalid names img dn st name hmemn hbad]
    | tail _ hmem2 =>
      unfold modifiedInit
      cases hsd : scanDir img dn0 names0 st with
      | error e =>
        cases e
        rfl
      | ok st1 =>
        exact ih img st1 dn names name hmem2 hmemn hbad

/-- Claim C9.  Recovery initialization: (a) any shard that contains a file
name that fails to parse as an unsigned integer, is out of range
(`chunk > total_chunks_at_initial_size`), or lies in a shard different
from `dir_of(chunk)` aborts initialization with the invalid-cache error
kind; (b) for every valid chunk file found, the modified bit is set and
`chunks_modified` is incremented, and then either the uploaded bit is also
set (persisted uploaded tag set) or `chunks_modified_not_uploaded` is
incremented (tag clear). -/
theorem c9_recovery_scan :
    (∀ (img : Image) (shards : List (Nat × List (List Char))) (st : St)
        (dn : Nat) (names : List (List Char)) (name : List Char),
        (dn, names) ∈ shards → name ∈ names → entryOk img dn name = false →
        modifiedInit img shards st = .error VmErr.invalidCache)
    ∧ (∀ (img : Image) (dn : Nat) (name : List Char) (st : St),
        entryOk img dn name = true →
        (scanEntry img dn name st).toOption.isSome = true
        ∧ ((scanEntry img dn name st).toOption.getD stEmptyState).modifiedMap (chunkOf name)
            = true
        ∧ ((scanEntry img dn name st).toOption.getD stEmptyState).chunksModified
            = st.chunksModified + 1
        ∧ (isUploadedSt st (chunkOf name) = true →
            ((scanEntry img dn name st).toOption.getD stEmptyState).uploadedMap (chunkOf name)
                = true
            ∧ ((scanEntry img dn name st).toOption.getD stEmptyState).chunksModifiedNotUploaded
                = st.chunksModifiedNotUploaded)
        ∧ (isUploadedSt st (chunkOf name) = false →
            ((scanEntry img dn name st).toOption.getD stEmptyState).chunksModifiedNotUploaded
                = st.chunksModifiedNotUploaded + 1
            ∧ ((scanEntry img dn name st).toOption.getD stEmptyState).uploadedMap (chunkOf name)
                = st.uploadedMap (chunkOf name))) := by
  constructor
  · intro img shards st dn names name h1 h2 h3
    exact modifiedInit_invalid shards img st dn names name h1 h2 h3
  · intro img dn name st h
    rw [scanEntry_valid_eq img dn name st h]
    cases hu : isUploadedSt st (chunkOf name) <;>
      simp [Except.toOption, hu, upd]

/-- Witness for C9: the malformed entry name `x` in shard 0 aborts
initialization of `img6`, and the entry name `+1` in shard 0 — which
`g_ascii_strtoull` converts to chunk 1 with `endptr` at the terminator, so
the source accepts it — sets `modified[1]` and bumps both counters from
the empty state (its persisted uploaded tag is absent). -/
theorem c9_recovery_scan_witness :
    modifiedInit img6 [(0, [['x']])] stEmptyState = .error VmErr.invalidCache
    ∧ ((scanEntry img6 0 ['+', '1'] stEmptyState).toOption.getD stEmptyState).modifiedMap
        (chunkOf ['+', '1']) = true
    ∧ ((scanEntry img6 0 ['+', '1'] stEmptyState).toOption.getD
        stEmptyState).chunksModifiedNotUploaded
        = stEmptyState.chunksModifiedNotUploaded + 1 :=
  ⟨c9_recovery_scan.1 img6 [(0, [['x']])] stEmptyState 0 [['x']] ['x']
      (by decide) (by decide) (by decide),
   (c9_recovery_scan.2 img6 0 ['+', '1'] stEmptyState (by decide)).2.1,
   ((c9_recovery_scan.2 img6 0 ['+', '1'] stEmptyState (by decide)).2.2.2.2 (by decide)).1⟩
